import Mathlib

/-!
Verification of the Zero-Music backend's library-index core against its
natural-language specification.  The Go source is shallowly embedded:
pure functions (`generateID`, `FormatDuration`, `estimateDuration`,
`NewSong`, `UpdateMetadata`) become Lean functions over `Nat`/`Int` with
explicit 32-bit wraparound where Go's `uint32` arithmetic wraps; the
stateful scanner (`MusicScanner.Scan`/`GetSongs`/`GetSongCount`) becomes
explicit state passing over a model filesystem; file I/O performed by the
metadata reader and the MP3 frame decoder is abstracted into explicit
parameters carrying the data the I/O would have produced.
-/

namespace ZeroMusic

/-! ## 32-bit word arithmetic over `Nat`

Go's `crypto/sha256` works on `uint32` words.  We model a word as a `Nat`
kept below `2^32` by explicit `% 2^32` after every wrapping operation. -/

/-- `2^32`, the modulus of Go's `uint32` arithmetic. -/
def w32 : Nat := 4294967296

/-- Wrapping 32-bit addition. -/
def add32 (x y : Nat) : Nat := (x + y) % w32

/-- 32-bit right rotation (inputs below `2^32`). -/
def rotr32 (n x : Nat) : Nat := ((x >>> n) ||| (x <<< (32 - n))) % w32

/-- Bitwise complement within 32 bits. -/
def not32 (x : Nat) : Nat := x ^^^ 4294967295

/-! ## SHA-256 (from Go's `crypto/sha256`, used by `generateID`) -/

/-- The 64 SHA-256 round constants (FIPS 180-4, written in decimal). -/
def shaK : List Nat :=
  [1116352408, 1899447441, 3049323471, 3921009573,
   961987163, 1508970993, 2453635748, 2870763221,
   3624381080, 310598401, 607225278, 1426881987,
   1925078388, 2162078206, 2614888103, 3248222580,
   3835390401, 4022224774, 264347078, 604807628,
   770255983, 1249150122, 1555081692, 1996064986,
   2554220882, 2821834349, 2952996808, 3210313671,
   3336571891, 3584528711, 113926993, 338241895,
   666307205, 773529912, 1294757372, 1396182291,
   1695183700, 1986661051, 2177026350, 2456956037,
   2730485921, 2820302411, 3259730800, 3345764771,
   3516065817, 3600352804, 4094571909, 275423344,
   430227734, 506948616, 659060556, 883997877,
   958139571, 1322822218, 1537002063, 1747873779,
   1955562222, 2024104815, 2227730452, 2361852424,
   2428436474, 2756734187, 3204031479, 3329325298]

/-- The SHA-256 working state: eight 32-bit words. -/
structure Sha8 where
  a : Nat
  b : Nat
  c : Nat
  d : Nat
  e : Nat
  f : Nat
  g : Nat
  h : Nat

/-- The SHA-256 initial hash value (FIPS 180-4, written in decimal). -/
def shaInit : Sha8 :=
  ⟨1779033703, 3144134277, 1013904242, 2773480762,
   1359893119, 2600822924, 528734635, 1541459225⟩

/-- `Ch(x,y,z) = (x ∧ y) ⊕ (¬x ∧ z)`. -/
def shaCh (x y z : Nat) : Nat := (x &&& y) ^^^ (not32 x &&& z)

/-- `Maj(x,y,z) = (x ∧ y) ⊕ (x ∧ z) ⊕ (y ∧ z)`. -/
def shaMaj (x y z : Nat) : Nat := (x &&& y) ^^^ (x &&& z) ^^^ (y &&& z)

/-- `Σ₀`. -/
def bsig0 (x : Nat) : Nat := rotr32 2 x ^^^ rotr32 13 x ^^^ rotr32 22 x

/-- `Σ₁`. -/
def bsig1 (x : Nat) : Nat := rotr32 6 x ^^^ rotr32 11 x ^^^ rotr32 25 x

/-- `σ₀`. -/
def ssig0 (x : Nat) : Nat := rotr32 7 x ^^^ rotr32 18 x ^^^ (x >>> 3)

/-- `σ₁`. -/
def ssig1 (x : Nat) : Nat := rotr32 17 x ^^^ rotr32 19 x ^^^ (x >>> 10)

/-- Group a byte list into big-endian 32-bit words, four bytes per word. -/
def bytesToWords : List Nat → List Nat
  | b0 :: b1 :: b2 :: b3 :: rest =>
      (((b0 * 256 + b1) * 256 + b2) * 256 + b3) :: bytesToWords rest
  | _ => []

/-- One message-schedule extension step: append
`σ₁(w[t-2]) + w[t-7] + σ₀(w[t-15]) + w[t-16] mod 2^32`. -/
def scheduleStep (w : List Nat) : List Nat :=
  let t := w.length
  w ++ [(ssig1 (w.getD (t - 2) 0) + w.getD (t - 7) 0 +
         ssig0 (w.getD (t - 15) 0) + w.getD (t - 16) 0) % w32]

/-- Iterate the schedule extension `n` times. -/
def scheduleExtend : Nat → List Nat → List Nat
  | 0, w => w
  | n + 1, w => scheduleExtend n (scheduleStep w)

/-- One SHA-256 round with schedule word `w` and round constant `k`. -/
def shaRound (st : Sha8) (wk : Nat × Nat) : Sha8 :=
  let t1 := (st.h + bsig1 st.e + shaCh st.e st.f st.g + wk.2 + wk.1) % w32
  let t2 := (bsig0 st.a + shaMaj st.a st.b st.c) % w32
  ⟨(t1 + t2) % w32, st.a, st.b, st.c, (st.d + t1) % w32, st.e, st.f, st.g⟩

/-- SHA-256 compression of one 64-byte block into the running state. -/
def shaCompress (st : Sha8) (block : List Nat) : Sha8 :=
  let ws := scheduleExtend 48 (bytesToWords block)
  let r := (ws.zip shaK).foldl shaRound st
  ⟨add32 st.a r.a, add32 st.b r.b, add32 st.c r.c, add32 st.d r.d,
   add32 st.e r.e, add32 st.f r.f, add32 st.g r.g, add32 st.h r.h⟩

/-- Fold the compression function over consecutive 64-byte blocks.
The fuel argument bounds the number of blocks; any fuel above
`msg.length` gives the fully folded result. -/
def shaBlocks : Nat → Sha8 → List Nat → Sha8
  | 0, st, _ => st
  | fuel + 1, st, msg =>
      if 64 ≤ msg.length then
        shaBlocks fuel (shaCompress st (msg.take 64)) (msg.drop 64)
      else st

/-- SHA-256 padding: `0x80`, zeros to 56 mod 64, then the bit length as
eight big-endian bytes. -/
def shaPad (msg : List Nat) : List Nat :=
  let len := msg.length
  let zeros := (56 + 64 - ((len + 1) % 64)) % 64
  msg ++ [0x80] ++ List.replicate zeros 0 ++
    [56, 48, 40, 32, 24, 16, 8, 0].map (fun s => ((8 * len) >>> s) % 256)

/-- The four big-endian bytes of a 32-bit word. -/
def wordBytes (w : Nat) : List Nat :=
  [(w >>> 24) % 256, (w >>> 16) % 256, (w >>> 8) % 256, w % 256]

/-- The 32-byte SHA-256 digest of a byte string. -/
def sha256 (msg : List Nat) : List Nat :=
  let p := shaPad msg
  let st := shaBlocks (p.length + 1) shaInit p
  wordBytes st.a ++ wordBytes st.b ++ wordBytes st.c ++ wordBytes st.d ++
    wordBytes st.e ++ wordBytes st.f ++ wordBytes st.g ++ wordBytes st.h

/-! ## UTF-8 encoding (Go's `[]byte(filePath)` conversion) -/

/-- UTF-8 encoding of one character (by scalar-value ranges). -/
def utf8Char (ch : Char) : List Nat :=
  let n := ch.toNat
  if n < 0x80 then [n]
  else if n < 0x800 then [0xC0 + n / 64, 0x80 + n % 64]
  else if n < 0x10000 then
    [0xE0 + n / 4096, 0x80 + (n / 64) % 64, 0x80 + n % 64]
  else
    [0xF0 + n / 262144, 0x80 + (n / 4096) % 64,
     0x80 + (n / 64) % 64, 0x80 + n % 64]

/-- The UTF-8 bytes of a string, as Go's `[]byte` conversion produces. -/
def utf8Bytes (s : String) : List Nat :=
  s.data.foldr (fun ch acc => utf8Char ch ++ acc) []

/-! ## Hex encoding and the song identifier
(`models/user_playlist.go`: `generateID`, `SongIDBytes`, `ValidIDPattern`) -/

/-- `SongIDBytes`: the ID keeps the first 16 digest bytes. -/
def songIDBytes : Nat := 16

/-- `SongIDHexLength`: 16 bytes encode to 32 hex characters. -/
def songIDHexLength : Nat := songIDBytes * 2

/-- The sixteen lowercase hex digits, as `encoding/hex` emits them. -/
def hexDigits : List Char := "0123456789abcdef".data

/-- The hex digit of a value below 16. -/
def hexChar (n : Nat) : Char := hexDigits.getD n '0'

/-- The character list of the lowercase hex encoding: two hex digits per
byte, high nibble first. -/
def hexCharsOf (bs : List Nat) : List Char :=
  bs.foldr (fun b acc => hexChar (b / 16) :: hexChar (b % 16) :: acc) []

/-- Lowercase hex encoding of a byte list (`hex.EncodeToString`). -/
def hexEncode (bs : List Nat) : String :=
  String.mk (hexCharsOf bs)

/-- The first `SongIDBytes` bytes of the path's digest (`hash[:16]`). -/
def digest16 (filePath : String) : List Nat :=
  (sha256 (utf8Bytes filePath)).take songIDBytes

/-- `generateID`: lowercase hex of the first 16 bytes of the SHA-256 of
the path's UTF-8 bytes. -/
def generateID (filePath : String) : String :=
  hexEncode (digest16 filePath)

/-- `ValidIDPattern`: the regex source string built by the Go code
(`fmt.Sprintf` of the hex length into `^[a-f0-9]{%d}$`). -/
def validIDPattern : String :=
  "^[a-f0-9]\x7b" ++ toString songIDHexLength ++ "\x7d$"

/-- A character matched by the regex class `[a-f0-9]`. -/
def isHexLower (ch : Char) : Bool :=
  ('0' ≤ ch && ch ≤ '9') || ('a' ≤ ch && ch ≤ 'f')

/-- Semantics of the anchored pattern `^[a-f0-9]{32}$`: exactly 32
characters, each in the class `[a-f0-9]`. -/
def matchesValidID (s : String) : Bool :=
  s.length == 32 && s.data.all isHexLower

/-! ## Go path/string helpers used by `NewSong` and the scanner -/

/-- Core of `filepath.Ext`: scan the reversed character list; a dot found
before any path separator yields the suffix from that dot on. -/
def extScan : List Char → List Char → List Char
  | [], _ => []
  | ch :: rest, acc =>
      if ch = '/' then []
      else if ch = '.' then '.' :: acc
      else extScan rest (ch :: acc)

/-- `filepath.Ext`: the suffix beginning at the final dot in the final
slash-separated element; empty if there is none. -/
def extGo (path : String) : String :=
  String.mk (extScan path.data.reverse [])

/-- `filepath.Base` (slash separator): the last element of the path.
Empty paths give `"."` and all-slash paths give `"/"`, as in Go. -/
def baseGo (path : String) : String :=
  if path = "" then "."
  else
    let trimmed := (path.data.reverse.dropWhile (fun ch => ch = '/'))
    if trimmed = [] then "/"
    else String.mk (trimmed.takeWhile (fun ch => ch ≠ '/')).reverse

/-- `strings.TrimSuffix`: drop the suffix when present, else return the
string unchanged. -/
def trimSuffix (s suffixStr : String) : String :=
  if suffixStr.data.isSuffixOf s.data then
    String.mk (s.data.take (s.data.length - suffixStr.data.length))
  else s

/-- ASCII lowering of one character.  `strings.ToLower` is Unicode-aware;
the scanner only applies it to ASCII file extensions, for which the ASCII
mapping coincides. -/
def lowerChar (ch : Char) : Char :=
  if 'A' ≤ ch ∧ ch ≤ 'Z' then Char.ofNat (ch.toNat + 32) else ch

/-- `strings.ToLower` restricted to the ASCII range (see `lowerChar`). -/
def toLowerStr (s : String) : String := String.mk (s.data.map lowerChar)

/-! ## The `Song` record and the Metadata Extractor
(`models/user_playlist.go`) -/

/-- The `Song` struct.  Go's `time.Time` field `AddedAt` is modelled as an
integer timestamp; `int`/`int64` fields are `Int`. -/
structure Song where
  id : String
  title : String
  artist : String
  album : String
  duration : Int
  durationFormatted : String
  filePath : String
  fileName : String
  fileSize : Int
  addedAt : Int
  format : String
  hasCover : Bool
  year : Int
  track : Int
  genre : String
deriving Repr, DecidableEq

/-- `%02d` for the minute/second components (all below 100 here). -/
def pad2 (n : Nat) : String :=
  if n < 10 then "0" ++ toString n else toString n

/-- `FormatDuration`: `"0:00"` for non-positive seconds, `M:SS` below one
hour, `H:MM:SS` once minutes reach 60. -/
def formatDuration (seconds : Int) : String :=
  if seconds ≤ 0 then "0:00"
  else
    let s := seconds.toNat
    let minutes := s / 60
    let secs := s % 60
    if minutes ≥ 60 then
      toString (minutes / 60) ++ ":" ++ pad2 (minutes % 60) ++ ":" ++ pad2 secs
    else
      toString minutes ++ ":" ++ pad2 secs

/-- The per-format assumed byte rate of `estimateDuration`'s `switch`. -/
def bytesPerSecond (format : String) : Int :=
  if format = ".flac" then 125000
  else if format = ".wav" then 176400
  else if format = ".m4a" ∨ format = ".aac" then 24000
  else if format = ".ogg" then 25000
  else 32000

/-- `estimateDuration`: zero for an empty file, otherwise
`FileSize / bytesPerSecond` in Go's truncating `int64` division. -/
def estimateDuration (s : Song) : Int :=
  if s.fileSize = 0 then 0
  else Int.tdiv s.fileSize (bytesPerSecond s.format)

/-- `NewSong`.  The `modTime` parameter carries the file's modification
time that Go reads with `os.Stat` (falling back to the current time);
the embedding takes it as an explicit input. -/
def newSong (filePath : String) (fileSize : Int) (modTime : Int) : Song :=
  let fileName := baseGo filePath
  let ext := extGo fileName
  { id := generateID filePath
    title := trimSuffix fileName ext
    artist := "Unknown"
    album := "Unknown"
    duration := 0
    durationFormatted := "0:00"
    filePath := filePath
    fileName := fileName
    fileSize := fileSize
    addedAt := modTime
    format := toLowerStr ext
    hasCover := false
    year := 0
    track := 0
    genre := "" }

/-- The fields `tag.ReadFrom` exposes and `UpdateMetadata` consults.
Absent string fields are `""` and absent numeric fields are `0`, which is
how the Go tag library reports them. -/
structure TagData where
  title : String
  artist : String
  album : String
  genre : String
  year : Int
  track : Int
  hasPicture : Bool
deriving Repr, DecidableEq

/-- `parseDuration`: MP3 files take the frame-decoded duration (here the
explicit `mp3Result` input standing for `parseMP3Duration`'s I/O result),
all other formats the size-based estimate; both branches re-render
`DurationFormatted`. -/
def parseDurationWith (s : Song) (mp3Result : Int) : Song :=
  let d := if s.format = ".mp3" then mp3Result else estimateDuration s
  { s with duration := d, durationFormatted := formatDuration d }

/-- `UpdateMetadata`.  `tagResult = none` models `os.Open` or
`tag.ReadFrom` failing (the method returns early); `some m` models a
parsed tag, whose non-empty / non-zero fields overwrite the defaults.
`mp3Result` stands for the value `parseMP3Duration` would decode. -/
def updateMetadata (s : Song) (tagResult : Option TagData) (mp3Result : Int) : Song :=
  match tagResult with
  | none => s
  | some m =>
      let s1 := if m.title ≠ "" then { s with title := m.title } else s
      let s2 := if m.artist ≠ "" then { s1 with artist := m.artist } else s1
      let s3 := if m.album ≠ "" then { s2 with album := m.album } else s2
      let s4 := if m.genre ≠ "" then { s3 with genre := m.genre } else s3
      let s5 := if m.year ≠ 0 then { s4 with year := m.year } else s4
      let s6 := if m.track ≠ 0 then { s5 with track := m.track } else s5
      let s7 := { s6 with hasCover := m.hasPicture }
      parseDurationWith s7 mp3Result

/-! ## The MP3 frame-decoding loop (`parseMP3Duration`)

The `tcolgate/mp3` decoder is abstracted as a step function on the
remaining byte stream: `decode stream = some (d, rest)` yields one frame
of duration `d` (nanoseconds) and the remaining stream, `none` is a
decode failure or end of stream.  The Go loop `for { Decode; break on
err; total += frame.Duration() }` becomes a fueled recursion. -/

/-- The accumulation loop of `parseMP3Duration`: decode frames until the
first failure, summing frame durations; a failure ends the loop and the
sum accumulated so far is kept.  Fuel exhaustion returns `none`. -/
def mp3Loop (decode : List Nat → Option (Nat × List Nat)) :
    Nat → List Nat → Nat → Option Nat
  | 0, _, _ => none
  | fuel + 1, stream, acc =>
      match decode stream with
      | none => some acc
      | some (d, rest) => mp3Loop decode fuel rest (acc + d)

/-- `parseMP3Duration`: run the loop on the whole stream and convert the
nanosecond total to whole seconds (`int(totalDuration.Seconds())`). -/
def parseMP3Duration (decode : List Nat → Option (Nat × List Nat))
    (stream : List Nat) : Option Nat :=
  (mp3Loop decode (stream.length + 1) stream 0).map (fun nanos => nanos / 1000000000)

/-! ## The scanner (`services/scanner.go`) and its model filesystem

The directory tree under the scanner's root is a `Forest`: a sibling list
whose entries are regular files, readable directories with their own
forest of children, or unreadable directories (where `filepath.Walk`
reports a permission error to the callback, which aborts the walk).
Sibling order stands for `filepath.Walk`'s lexical visit order. -/

inductive Forest where
  | nil : Forest
  | fileEntry (name : String) (size : Int) (mtime : Int) (rest : Forest)
  | dirEntry (name : String) (children : Forest) (rest : Forest)
  | badDirEntry (name : String) (rest : Forest)
deriving Repr, DecidableEq

/-- A file met during the walk: its joined path, size and mtime. -/
structure FileRec where
  path : String
  size : Int
  mtime : Int
deriving Repr, DecidableEq

/-- `filepath.Walk` from a parent path: the files visited before any
error, in visit order, together with the error that aborted the walk, if
any.  An unreadable directory aborts; entries after it are not visited. -/
def walkForest (parent : String) : Forest → List FileRec × Option String
  | .nil => ([], none)
  | .fileEntry n sz mt rest =>
      let step := walkForest parent rest
      (⟨parent ++ "/" ++ n, sz, mt⟩ :: step.1, step.2)
  | .dirEntry n cs rest =>
      let inner := walkForest (parent ++ "/" ++ n) cs
      match inner.2 with
      | some err => (inner.1, some err)
      | none =>
          let step := walkForest parent rest
          (inner.1 ++ step.1, step.2)
  | .badDirEntry n _ => ([], some ("permission denied: " ++ parent ++ "/" ++ n))

/-- Callback invocations of an error-free walk below the root: one per
entry (directories and files alike). -/
def forestVisits : Forest → Nat
  | .nil => 0
  | .fileEntry _ _ _ rest => 1 + forestVisits rest
  | .dirEntry _ cs rest => 1 + forestVisits cs + forestVisits rest
  | .badDirEntry _ _ => 1

/-- `MusicScanner`: the root directory and the cached song list. -/
structure MusicScanner where
  directory : String
  songs : List Song
deriving Repr

/-- The scanner's file test: lowercased `filepath.Ext` equals `".mp3"`. -/
def isMp3Path (path : String) : Bool :=
  toLowerStr (extGo path) == ".mp3"

/-- The songs built from a walk's file list: keep the `.mp3` files, build
a `Song` for each (`models.NewSong(path, info.Size())`, mtime from the
file). -/
def scanSongs (files : List FileRec) : List Song :=
  (files.filter fun f => isMp3Path f.path).map fun f => newSong f.path f.size f.mtime

/-- `MusicScanner.Scan` over a model filesystem (`none` = the root
directory does not exist).  The cached list is reset first, exactly as
`s.songs = make(...)` does; on a walk error the songs appended before the
error remain in the state and an error is returned. -/
def scan (st : MusicScanner) (fs : Option Forest) :
    MusicScanner × Except String (List Song) :=
  let st0 : MusicScanner := { st with songs := [] }
  match fs with
  | none => (st0, .error ("directory does not exist: " ++ st.directory))
  | some forest =>
      let walked := walkForest st.directory forest
      let newSongs := scanSongs walked.1
      match walked.2 with
      | some e => ({ st0 with songs := newSongs }, .error ("scan failed: " ++ e))
      | none => ({ st0 with songs := newSongs }, .ok newSongs)

/-- `MusicScanner.GetSongs`: the cached list, no filesystem access. -/
def getSongs (st : MusicScanner) : List Song := st.songs

/-- `MusicScanner.GetSongCount`: the cached list's length. -/
def getSongCount (st : MusicScanner) : Nat := st.songs.length

/-- Filesystem callback invocations a `Scan` performs: one `os.Stat` plus,
when the root exists, the root callback and one per visited entry.  A
missing root is stat-only (counted 0 traversal visits). -/
def scanTraversalCount (fs : Option Forest) : Nat :=
  match fs with
  | none => 0
  | some forest => 1 + forestVisits forest

/-! ## Configuration defaults (`config/config.go`, `ensureDefaults`) -/

/-- The default supported-format set filled in by `ensureDefaults`. -/
def defaultSupportedFormats : List String :=
  [".mp3", ".flac", ".wav", ".m4a", ".ogg"]

/-- `DefaultCacheTTLMinutes`. -/
def defaultCacheTTLMinutes : Nat := 5

/-! ## Spec-side renderings used to state the formatting claims -/

/-- The claim's reading of `FormatDuration`: `"0:00"` for zero/negative,
`M:SS` below one hour, `H:MM:SS` from one hour on, with the hour/minute/
second decomposition written directly. -/
def specFormatDuration (seconds : Int) : String :=
  if seconds ≤ 0 then "0:00"
  else
    let s := seconds.toNat
    if s < 3600 then toString (s / 60) ++ ":" ++ pad2 (s % 60)
    else toString (s / 3600) ++ ":" ++ pad2 (s % 3600 / 60) ++ ":" ++ pad2 (s % 60)

/-- The hour/minute/second components `FormatDuration` interpolates into
its output (hours component 0 when no hour field is shown). -/
def durationComponents (seconds : Int) : Nat × Nat × Nat :=
  if seconds ≤ 0 then (0, 0, 0)
  else
    let s := seconds.toNat
    let minutes := s / 60
    if 60 ≤ minutes then (minutes / 60, minutes % 60, s % 60)
    else (0, minutes, s % 60)

/-- Render components back to the display string: `M:SS` when the hours
component is zero, `H:MM:SS` otherwise. -/
def renderComponents (c : Nat × Nat × Nat) : String :=
  if c.1 = 0 then toString c.2.1 ++ ":" ++ pad2 c.2.2
  else toString c.1 ++ ":" ++ pad2 c.2.1 ++ ":" ++ pad2 c.2.2

/-! ## Claim theorems -/

/-- **C9.** `FormatDuration` maps any zero or negative number of seconds
to `"0:00"`, any positive number below one hour to `M:SS` with the
seconds zero-padded to two digits, and one hour or more (minutes
reaching 60) to `H:MM:SS` with minutes and seconds zero-padded — i.e. it
agrees everywhere with the spec-side renderer `specFormatDuration`. -/
theorem c9_formatDuration_spec (seconds : Int) :
    formatDuration seconds = specFormatDuration seconds := by
  by_cases h0 : seconds ≤ 0
  · simp [formatDuration, specFormatDuration, h0]
  · simp only [formatDuration, specFormatDuration, if_neg h0]
    by_cases h1 : 60 ≤ seconds.toNat / 60
    · have e1 : seconds.toNat / 60 / 60 = seconds.toNat / 3600 := by omega
      have e2 : seconds.toNat / 60 % 60 = seconds.toNat % 3600 / 60 := by omega
      have h2 : ¬ seconds.toNat < 3600 := by omega
      simp [h1, h2, e1, e2]
    · have h2 : seconds.toNat < 3600 := by omega
      simp [h1, h2]

/-- **C10.** For every positive number of seconds, the components shown
by `FormatDuration` reconstruct the input exactly
(`hours*3600 + minutes*60 + seconds`), the seconds component is in 0–59,
the minutes component is in 0–59, and the rendered string is exactly the
rendering of those components. -/
theorem c10_formatDuration_roundtrip (seconds : Int) (hpos : 0 < seconds) :
    formatDuration seconds = renderComponents (durationComponents seconds) ∧
    ((durationComponents seconds).1 * 3600 + (durationComponents seconds).2.1 * 60 +
        (durationComponents seconds).2.2 : Int) = seconds ∧
    (durationComponents seconds).2.2 < 60 ∧
    (durationComponents seconds).2.1 < 60 := by
  have h0 : ¬ seconds ≤ 0 := by omega
  have hs : (seconds.toNat : Int) = seconds := Int.toNat_of_nonneg (by omega)
  by_cases h1 : 60 ≤ seconds.toNat / 60
  · have hne : seconds.toNat / 60 / 60 ≠ 0 := by omega
    have hd : durationComponents seconds =
        (seconds.toNat / 60 / 60, seconds.toNat / 60 % 60, seconds.toNat % 60) := by
      unfold durationComponents
      rw [if_neg h0, if_pos h1]
    have hnat : seconds.toNat / 60 / 60 * 3600 + seconds.toNat / 60 % 60 * 60 +
        seconds.toNat % 60 = seconds.toNat := by omega
    refine ⟨?_, ?_, ?_, ?_⟩
    · simp only [formatDuration, renderComponents, hd, if_neg h0, ge_iff_le]
      simp [hne, h1]
    · rw [hd, ← hs]
      exact_mod_cast hnat
    · rw [hd]
      show seconds.toNat % 60 < 60
      omega
    · rw [hd]
      show seconds.toNat / 60 % 60 < 60
      omega
  · have hd : durationComponents seconds =
        (0, seconds.toNat / 60, seconds.toNat % 60) := by
      unfold durationComponents
      rw [if_neg h0, if_neg h1]
    have hnat : 0 * 3600 + seconds.toNat / 60 * 60 + seconds.toNat % 60 =
        seconds.toNat := by omega
    refine ⟨?_, ?_, ?_, ?_⟩
    · simp only [formatDuration, renderComponents, hd, if_neg h0, ge_iff_le]
      simp [h1]
    · rw [hd, ← hs]
      exact_mod_cast hnat
    · rw [hd]
      show seconds.toNat % 60 < 60
      omega
    · rw [hd]
      show seconds.toNat / 60 < 60
      omega

/-- Witness for C10 at 3661 seconds (displayed `1:01:01`). -/
theorem c10_formatDuration_roundtrip_witness :
    formatDuration 3661 = renderComponents (durationComponents 3661) ∧
    ((durationComponents 3661).1 * 3600 + (durationComponents 3661).2.1 * 60 +
        (durationComponents 3661).2.2 : Int) = 3661 ∧
    (durationComponents 3661).2.2 < 60 ∧
    (durationComponents 3661).2.1 < 60 :=
  c10_formatDuration_roundtrip 3661 (by decide)

/-- **C8.** For every non-MP3 format the estimated duration is
`fileSize / bytesPerSecond(format)` in Go's truncating division (zero
for a zero file size), the lossless constants (`.flac`, `.wav`) strictly
exceed every lossy constant, and a format outside the table falls back to
the generic 32000 bytes/second. -/
theorem c8_estimateDuration_table (song : Song) (mp3Result : Int) :
    (song.fileSize = 0 → estimateDuration song = 0) ∧
    (song.fileSize ≠ 0 →
      estimateDuration song = Int.tdiv song.fileSize (bytesPerSecond song.format)) ∧
    (song.format ≠ ".mp3" →
      (parseDurationWith song mp3Result).duration = estimateDuration song) ∧
    bytesPerSecond ".flac" = 125000 ∧ bytesPerSecond ".wav" = 176400 ∧
    bytesPerSecond ".m4a" = 24000 ∧ bytesPerSecond ".aac" = 24000 ∧
    bytesPerSecond ".ogg" = 25000 ∧
    (∀ fmt : String, fmt ∉ ([".flac", ".wav", ".m4a", ".aac", ".ogg"] : List String) →
      bytesPerSecond fmt = 32000) ∧
    (∀ fl lossy : String, fl ∈ ([".flac", ".wav"] : List String) →
      lossy ∉ ([".flac", ".wav"] : List String) →
      bytesPerSecond lossy < bytesPerSecond fl) := by
  refine ⟨?_, ?_, ?_, rfl, rfl, rfl, rfl, rfl, ?_, ?_⟩
  · intro h
    simp [estimateDuration, h]
  · intro h
    simp [estimateDuration, h]
  · intro h
    simp [parseDurationWith, h]
  · intro fmt h
    simp only [List.mem_cons, List.not_mem_nil, or_false, not_or] at h
    obtain ⟨h1, h2, h3, h4, h5⟩ := h
    simp [bytesPerSecond, h1, h2, h3, h4, h5]
  · intro fl lossy hfl hl
    simp only [List.mem_cons, List.not_mem_nil, or_false, not_or] at hl
    obtain ⟨h1, h2⟩ := hl
    have hle : bytesPerSecond lossy ≤ 32000 := by
      simp only [bytesPerSecond, if_neg h1, if_neg h2]
      split_ifs <;> omega
    simp only [List.mem_cons, List.not_mem_nil, or_false] at hfl
    have eflac : bytesPerSecond ".flac" = 125000 := rfl
    have ewav : bytesPerSecond ".wav" = 176400 := rfl
    rcases hfl with h | h <;> subst h <;> omega

/-- A sample unsupported-extension song for the C8 witness. -/
def xyzSongExample : Song := newSong "/music/a.xyz" 0 0

/-- Witness for C8: an unknown format gets the 32000 default and a
zero-size file estimates to zero. -/
theorem c8_estimateDuration_table_witness :
    estimateDuration xyzSongExample = 0 ∧ bytesPerSecond ".xyz" = 32000 :=
  ⟨(c8_estimateDuration_table xyzSongExample 0).1 (by decide),
   (c8_estimateDuration_table xyzSongExample 0).2.2.2.2.2.2.2.2.1 ".xyz" (by decide)⟩

/-- A `.flac` song whose size equals the `.flac` byte-rate constant, so
its estimated duration is one second. -/
def flacSongExample : Song := newSong "/music/x.flac" 125000 0

/-- A successfully parsed tag that supplies no field at all. -/
def emptyTagExample : TagData := ⟨"", "", "", "", 0, 0, false⟩

/-- **C6, counterexample.** `UpdateMetadata` does not overwrite *only*
title/artist/album/genre/year/track/cover-flag: whenever the tag parses,
`parseDuration` runs and rewrites `Duration`/`DurationFormatted` too.
On a defaulted `.flac` song of 125000 bytes, a tag supplying no field
still changes `Duration` from 0 to 1 and its rendering from `"0:00"` to
`"0:01"`. -/
theorem c6_counterexample :
    (updateMetadata flacSongExample (some emptyTagExample) 0).duration = 1 ∧
    flacSongExample.duration = 0 ∧
    (updateMetadata flacSongExample (some emptyTagExample) 0).durationFormatted = "0:01" ∧
    flacSongExample.durationFormatted = "0:00" := by
  refine ⟨?_, rfl, ?_, rfl⟩ <;> decide

/-- Flattened form of the `UpdateMetadata` overlay chain on a parsed
tag: each display field keeps its old value unless the tag supplies one,
the cover flag comes from the tag, and the duration recomputation is
applied on top. -/
theorem updateMetadata_some_eq (s : Song) (m : TagData) (mp3Result : Int) :
    updateMetadata s (some m) mp3Result =
      parseDurationWith
        { s with
          title := if m.title ≠ "" then m.title else s.title
          artist := if m.artist ≠ "" then m.artist else s.artist
          album := if m.album ≠ "" then m.album else s.album
          genre := if m.genre ≠ "" then m.genre else s.genre
          year := if m.year ≠ 0 then m.year else s.year
          track := if m.track ≠ 0 then m.track else s.track
          hasCover := m.hasPicture } mp3Result := by
  simp only [updateMetadata]
  split_ifs <;> rfl

/-- **C6, amended.** `UpdateMetadata` never changes ID, FilePath,
FileName, FileSize, Format or AddedAt; when opening or parsing fails the
song is returned unchanged; when a tag is parsed, each of
title/artist/album/genre/year/track is overwritten only if the tag
supplies it (non-empty string, non-zero number), the cover flag is set
from the tag's picture — and, beyond the claim's list, the two duration
fields are recomputed. -/
theorem c6_updateMetadata_frame (s : Song) (tagResult : Option TagData) (mp3Result : Int) :
    ((updateMetadata s tagResult mp3Result).id = s.id ∧
     (updateMetadata s tagResult mp3Result).filePath = s.filePath ∧
     (updateMetadata s tagResult mp3Result).fileName = s.fileName ∧
     (updateMetadata s tagResult mp3Result).fileSize = s.fileSize ∧
     (updateMetadata s tagResult mp3Result).format = s.format ∧
     (updateMetadata s tagResult mp3Result).addedAt = s.addedAt) ∧
    updateMetadata s none mp3Result = s ∧
    (∀ m : TagData,
      (m.title = "" → (updateMetadata s (some m) mp3Result).title = s.title) ∧
      (m.artist = "" → (updateMetadata s (some m) mp3Result).artist = s.artist) ∧
      (m.album = "" → (updateMetadata s (some m) mp3Result).album = s.album) ∧
      (m.genre = "" → (updateMetadata s (some m) mp3Result).genre = s.genre) ∧
      (m.year = 0 → (updateMetadata s (some m) mp3Result).year = s.year) ∧
      (m.track = 0 → (updateMetadata s (some m) mp3Result).track = s.track) ∧
      (updateMetadata s (some m) mp3Result).hasCover = m.hasPicture) := by
  refine ⟨?_, rfl, ?_⟩
  · cases tagResult with
    | none => exact ⟨rfl, rfl, rfl, rfl, rfl, rfl⟩
    | some m =>
        rw [updateMetadata_some_eq]
        exact ⟨rfl, rfl, rfl, rfl, rfl, rfl⟩
  · intro m
    simp only [updateMetadata_some_eq, parseDurationWith]
    refine ⟨?_, ?_, ?_, ?_, ?_, ?_, ?_⟩ <;> first | (intro h; simp [h]) | trivial

/-- Witness for C6 (amended) on the concrete `.flac` song and the
empty tag: the frame fields and the unsupplied fields are retained. -/
theorem c6_updateMetadata_frame_witness :
    (updateMetadata flacSongExample (some emptyTagExample) 0).id = flacSongExample.id ∧
    (updateMetadata flacSongExample (some emptyTagExample) 0).title = flacSongExample.title ∧
    (updateMetadata flacSongExample (some emptyTagExample) 0).year = flacSongExample.year ∧
    updateMetadata flacSongExample none 0 = flacSongExample :=
  ⟨(c6_updateMetadata_frame flacSongExample (some emptyTagExample) 0).1.1,
   ((c6_updateMetadata_frame flacSongExample (some emptyTagExample) 0).2.2 emptyTagExample).1 rfl,
   ((c6_updateMetadata_frame flacSongExample (some emptyTagExample) 0).2.2 emptyTagExample).2.2.2.2.1 rfl,
   (c6_updateMetadata_frame flacSongExample none 0).2.1⟩

/-- The loop body of `parseMP3Duration`, fully characterised: with a
decoder that consumes at least one byte per frame, the loop with any fuel
above the stream length returns `some` of the accumulator plus a total
that depends only on the stream. -/
theorem mp3Loop_total (decode : List Nat → Option (Nat × List Nat))
    (hprog : ∀ s d r, decode s = some (d, r) → r.length < s.length) :
    ∀ (fuel : Nat) (stream : List Nat), stream.length < fuel →
      ∃ n, ∀ (acc : Nat) (fuel' : Nat), stream.length < fuel' →
        mp3Loop decode fuel' stream acc = some (acc + n) := by
  intro fuel
  induction fuel with
  | zero => intro stream h; omega
  | succ f ih =>
      intro stream hlen
      cases hdec : decode stream with
      | none =>
          refine ⟨0, ?_⟩
          intro acc fuel' hf
          cases fuel' with
          | zero => omega
          | succ g => simp [mp3Loop, hdec]
      | some dr =>
          obtain ⟨d, rest⟩ := dr
          have hr : rest.length < stream.length := hprog stream d rest hdec
          obtain ⟨n, hn⟩ := ih rest (by omega)
          refine ⟨d + n, ?_⟩
          intro acc fuel' hf
          cases fuel' with
          | zero => omega
          | succ g =>
              have : mp3Loop decode (g + 1) stream acc = mp3Loop decode g rest (acc + d) := by
                simp [mp3Loop, hdec]
              rw [this, hn (acc + d) g (by omega)]
              congr 1
              omega

/-- **C7.** The MP3 duration loop decodes frames sequentially and always
terminates for any decoder that consumes input: `parseMP3Duration`
returns a value (never runs out of fuel), a decode failure on the first
step is treated as end-of-stream with total 0, and when a frame of
duration `d` is decoded the final total is `d` plus the total of the
remaining stream — the already-accumulated sum is kept, not discarded. -/
theorem c7_parseMP3Duration_total (decode : List Nat → Option (Nat × List Nat))
    (hprog : ∀ s d r, decode s = some (d, r) → r.length < s.length)
    (stream : List Nat) :
    (∃ total, parseMP3Duration decode stream = some total) ∧
    (decode stream = none → parseMP3Duration decode stream = some 0) ∧
    (∀ d rest, decode stream = some (d, rest) →
      mp3Loop decode (stream.length + 1) stream 0 =
        (mp3Loop decode (rest.length + 1) rest 0).map (fun n => d + n)) := by
  obtain ⟨n, hn⟩ := mp3Loop_total decode hprog (stream.length + 1) stream (by omega)
  refine ⟨?_, ?_, ?_⟩
  · exact ⟨n / 1000000000, by simp [parseMP3Duration, hn 0 (stream.length + 1) (by omega)]⟩
  · intro hdec
    simp [parseMP3Duration, mp3Loop, hdec]
  · intro d rest hdec
    have hr : rest.length < stream.length := hprog stream d rest hdec
    obtain ⟨m, hm⟩ := mp3Loop_total decode hprog (rest.length + 1) rest (by omega)
    have hstep : mp3Loop decode (stream.length + 1) stream 0 =
        mp3Loop decode stream.length rest d := by
      simp [mp3Loop, hdec]
    rw [hstep, hm d stream.length (by omega), hm 0 (rest.length + 1) (by omega)]
    simp [Nat.add_comm]

/-- A sample decoder for the C7 witness: two bytes per frame, one second
(`10^9` ns) each; fewer than two bytes left is a decode failure. -/
def mp3DecodeExample : List Nat → Option (Nat × List Nat)
  | _ :: _ :: rest => some (1000000000, rest)
  | _ => none

/-- `mp3DecodeExample` strictly consumes input. -/
theorem mp3DecodeExample_progress :
    ∀ s d r, mp3DecodeExample s = some (d, r) → r.length < s.length := by
  intro s d r h
  match s with
  | [] => simp [mp3DecodeExample] at h
  | [_] => simp [mp3DecodeExample] at h
  | _ :: _ :: rest =>
      simp only [mp3DecodeExample, Option.some.injEq, Prod.mk.injEq] at h
      obtain ⟨-, h2⟩ := h
      subst h2
      simp only [List.length_cons]
      omega

/-- Witness for C7: on a five-byte stream the loop terminates with a
value; the decoded total is 3 seconds for 3 whole frames worth of data
plus a trailing byte. -/
theorem c7_parseMP3Duration_total_witness :
    (∃ total, parseMP3Duration mp3DecodeExample [0, 0, 0, 0, 0] = some total) ∧
    parseMP3Duration mp3DecodeExample [0, 0, 0, 0, 0] = some 2 :=
  ⟨(c7_parseMP3Duration_total mp3DecodeExample mp3DecodeExample_progress [0, 0, 0, 0, 0]).1,
   by decide⟩

/-- Whether a scan result is the error case. -/
def isScanError (r : Except String (List Song)) : Bool :=
  match r with
  | .error _ => true
  | .ok _ => false

/-- A song cached from an earlier successful scan. -/
def priorSongExample : Song := newSong "/music/old.mp3" 1 1

/-- A scanner whose cache holds one song from an earlier scan. -/
def populatedScannerExample : MusicScanner := ⟨"/music", [priorSongExample]⟩

/-- **C2, counterexample.** A failed `Scan` does *not* leave the
previously cached catalog untouched: `Scan` resets `s.songs` before the
existence check, so when the root directory is missing the failed scan
leaves the cache empty.  With one song cached, a scan against a missing
root fails and `GetSongCount` drops from 1 to 0. -/
theorem c2_counterexample :
    isScanError (scan populatedScannerExample none).2 = true ∧
    getSongCount populatedScannerExample = 1 ∧
    getSongCount (scan populatedScannerExample none).1 = 0 := by
  refine ⟨rfl, rfl, rfl⟩

/-- **C2, amended.** After a `Scan`, the cached list never reflects the
pre-scan catalog: it is reset at entry, so a scan against a missing root
fails leaving the cache empty, and a scan whose walk errors partway
fails leaving exactly the songs built from the files visited before the
error; a scan over an error-free walk succeeds with the new catalog. -/
theorem c2_scan_failure_state (st : MusicScanner) (fs : Option Forest) :
    (fs = none →
      (scan st fs).1.songs = [] ∧ isScanError (scan st fs).2 = true) ∧
    (∀ forest, fs = some forest →
      (scan st fs).1.songs = scanSongs (walkForest st.directory forest).1 ∧
      (isScanError (scan st fs).2 = true ↔
        (walkForest st.directory forest).2 ≠ none)) := by
  constructor
  · intro h
    subst h
    exact ⟨rfl, rfl⟩
  · intro forest h
    subst h
    simp only [scan]
    cases hw : (walkForest st.directory forest).2 with
    | none => simp [hw, isScanError]
    | some e => simp [hw, isScanError]

/-- Witness for C2 (amended) at the missing-root case of the populated
scanner. -/
theorem c2_scan_failure_state_witness :
    (scan populatedScannerExample none).1.songs = [] ∧
    isScanError (scan populatedScannerExample none).2 = true :=
  (c2_scan_failure_state populatedScannerExample none).1 rfl

/-- A one-file filesystem for the freshness counterexample. -/
def freshForestExample : Forest := Forest.fileEntry "a.mp3" 10 1 Forest.nil

/-- **C3, counterexample.** It is not true that a catalog request made
while the cache is fresh (non-empty cache, elapsed time below the TTL,
root mtime not newer) performs zero filesystem traversal: the scanner
keeps no freshness state at all, and `Scan` — the operation behind every
catalog request — walks the directory unconditionally.  With a one-song
cache, zero elapsed minutes against the default 5-minute TTL and an
unchanged root mtime, the scan still visits the root and the file. -/
theorem c3_counterexample :
    ¬ (∀ (st : MusicScanner) (fs : Option Forest)
        (elapsedMinutes ttlMinutes : Nat) (mtimeAtScan mtimeNow : Int),
        st.songs ≠ [] → elapsedMinutes < ttlMinutes → mtimeNow ≤ mtimeAtScan →
        scanTraversalCount fs = 0) := by
  intro h
  have hc := h populatedScannerExample (some freshForestExample)
    0 defaultCacheTTLMinutes 0 0 (by simp [populatedScannerExample])
    (by decide) le_rfl
  simp [scanTraversalCount, freshForestExample, forestVisits] at hc

/-- **C3, amended.** The scanner has no freshness policy: every `Scan`
against an existing root performs a full traversal (a positive number of
visits, rebuilding the catalog from the walk), regardless of cache
contents, elapsed time or mtimes; zero-traversal reads exist only as
`GetSongs`/`GetSongCount`, which serve the cache and never rebuild. -/
theorem c3_scan_always_walks (st : MusicScanner) (forest : Forest) :
    0 < scanTraversalCount (some forest) ∧
    (scan st (some forest)).1.songs = scanSongs (walkForest st.directory forest).1 ∧
    getSongs st = st.songs ∧
    getSongCount st = (getSongs st).length := by
  refine ⟨?_, ?_, rfl, rfl⟩
  · simp [scanTraversalCount]
  · simp only [scan]
    cases hw : (walkForest st.directory forest).2 with
    | none => simp [hw]
    | some e => simp [hw]

/-- The spec's reading of the scan filter, modelled from the claim's
words: keep exactly the files whose lowercased extension lies in the
configured supported-format set. -/
def specScanSongs (supported : List String) (files : List FileRec) : List Song :=
  (files.filter fun f => supported.contains (toLowerStr (extGo f.path))).map
    fun f => newSong f.path f.size f.mtime

/-- **C4, counterexample.** The scan does not include every regular file
whose lowercased extension is in the configured supported-format set:
the walk callback hard-codes the single extension `".mp3"` and ignores
the configured set.  A root containing only `a.flac` — whose extension
is in the default set `[".mp3", ".flac", ".wav", ".m4a", ".ogg"]` —
scans to an empty catalog where the claim requires one entry. -/
theorem c4_counterexample :
    ¬ (∀ (st : MusicScanner) (forest : Forest),
        (scan st (some forest)).1.songs =
          specScanSongs defaultSupportedFormats (walkForest st.directory forest).1) := by
  intro h
  exact absurd (h ⟨"/music", []⟩ (Forest.fileEntry "a.flac" 100 0 Forest.nil)) (by decide)

/-- The spec scenario's directory: `a.mp3`, `b.xyz`, and `sub/c.mp3`. -/
def scenarioForest : Forest :=
  Forest.fileEntry "a.mp3" 100 0
    (Forest.fileEntry "b.xyz" 50 0
      (Forest.dirEntry "sub" (Forest.fileEntry "c.mp3" 200 0 Forest.nil) Forest.nil))

/-- A fresh scanner over `/music` for the scenario. -/
def scenarioScanner : MusicScanner := ⟨"/music", []⟩

/-- **C4, amended.** The scan walks the root recursively, skips
directories, and includes exactly the regular files whose lowercased
extension equals `".mp3"`, ignoring the configured supported-format set;
on the spec's scenario directory (`a.mp3`, `b.xyz`, `sub/c.mp3`) it
yields exactly the two `.mp3` entries, with distinct valid 32-hex-char
identifiers and `b.xyz` excluded. -/
theorem c4_scan_filter (st : MusicScanner) (forest : Forest) :
    (scan st (some forest)).1.songs =
      ((walkForest st.directory forest).1.filter fun f => isMp3Path f.path).map
        (fun f => newSong f.path f.size f.mtime) ∧
    ((scan scenarioScanner (some scenarioForest)).1.songs.map Song.filePath =
      ["/music/a.mp3", "/music/sub/c.mp3"]) ∧
    ((scan scenarioScanner (some scenarioForest)).1.songs.map Song.id).Nodup ∧
    (∀ i ∈ (scan scenarioScanner (some scenarioForest)).1.songs.map Song.id,
      matchesValidID i = true) := by
  refine ⟨?_, by decide, by decide, by decide⟩
  simp only [scan, scanSongs]
  cases hw : (walkForest st.directory forest).2 with
  | none => simp [hw]
  | some e => simp [hw]

/-! ## Facts about the digest pipeline (for C1 and C5) -/

/-- A word's four big-endian bytes are bytes. -/
theorem wordBytes_mem_lt (w : Nat) : ∀ b ∈ wordBytes w, b < 256 := by
  intro b hb
  simp only [wordBytes, List.mem_cons, List.not_mem_nil, or_false] at hb
  rcases hb with rfl | rfl | rfl | rfl <;> exact Nat.mod_lt _ (by decide)

/-- A SHA-256 digest has 32 bytes. -/
theorem sha256_length (msg : List Nat) : (sha256 msg).length = 32 := by
  simp [sha256, wordBytes]

/-- Every entry of a SHA-256 digest is a byte. -/
theorem sha256_mem_lt (msg : List Nat) : ∀ b ∈ sha256 msg, b < 256 := by
  intro b hb
  simp only [sha256, List.append_assoc, List.mem_append] at hb
  rcases hb with h | h | h | h | h | h | h | h <;> exact wordBytes_mem_lt _ b h

/-- The truncated digest keeps exactly 16 bytes. -/
theorem digest16_length (p : String) : (digest16 p).length = 16 := by
  simp [digest16, songIDBytes, sha256_length]

/-- The truncated digest's entries are bytes. -/
theorem digest16_mem_lt (p : String) : ∀ b ∈ digest16 p, b < 256 :=
  fun b hb => sha256_mem_lt (utf8Bytes p) b (List.take_subset _ _ hb)

/-- Hex encoding yields two characters per byte. -/
theorem hexCharsOf_length (bs : List Nat) : (hexCharsOf bs).length = 2 * bs.length := by
  induction bs with
  | nil => rfl
  | cons b t ih =>
      simp only [hexCharsOf, List.foldr] at ih ⊢
      simp [ih]
      omega

/-- Hex digits of values below 16 lie in the class `[a-f0-9]`. -/
theorem hexChar_isHexLower : ∀ n < 16, isHexLower (hexChar n) = true := by decide

/-- All characters of a byte list's hex encoding lie in `[a-f0-9]`. -/
theorem hexCharsOf_mem (bs : List Nat) (hb : ∀ b ∈ bs, b < 256) :
    ∀ c ∈ hexCharsOf bs, isHexLower c = true := by
  induction bs with
  | nil => intro c hc; simp [hexCharsOf] at hc
  | cons b t ih =>
      intro c hc
      have hblt : b < 256 := hb b (by simp)
      simp only [hexCharsOf, List.foldr, List.mem_cons] at hc
      rcases hc with rfl | rfl | hc
      · exact hexChar_isHexLower _ (by omega)
      · exact hexChar_isHexLower _ (by omega)
      · exact ih (fun x hx => hb x (by simp [hx])) c hc

/-- **C1.** The derived song identifier is exactly the lowercase hex
encoding of the first 16 bytes of the SHA-256 of the path's UTF-8 bytes,
a 32-character string; it is a pure function of the path (identical on
identical paths); it satisfies the anchored class pattern `[a-f0-9]{32}`,
and `ValidIDPattern` returns exactly `^[a-f0-9]{32}$`. -/
theorem c1_generateID_valid (path : String) :
    generateID path = hexEncode ((sha256 (utf8Bytes path)).take songIDBytes) ∧
    (generateID path).length = 32 ∧
    matchesValidID (generateID path) = true ∧
    validIDPattern = "^[a-f0-9]\x7b32\x7d$" ∧
    (∀ other : String, other = path → generateID other = generateID path) := by
  have hlen : (generateID path).length = 32 := by
    have := hexCharsOf_length (digest16 path)
    rw [digest16_length] at this
    simpa [generateID, hexEncode, String.length] using this
  refine ⟨rfl, hlen, ?_, by decide, fun _ h => by rw [h]⟩
  simp only [matchesValidID, Bool.and_eq_true, beq_iff_eq, List.all_eq_true]
  refine ⟨hlen, ?_⟩
  intro c hc
  exact hexCharsOf_mem (digest16 path) (digest16_mem_lt path) c hc

/-- Known-answer check of the embedded SHA-256 pipeline: the identifier
of `"abc"` matches the first 16 bytes of the standard SHA-256 test
vector (`ba7816bf 8f01cfea 414140de 5dae2223 …`). -/
theorem generateID_known_vector :
    generateID "abc" = "ba7816bf8f01cfea414140de5dae2223" := by decide

/-! ## Non-injectivity of the truncated digest (for C5) -/

/-- Little-endian value of a byte list. -/
def bytesToNat : List Nat → Nat
  | [] => 0
  | b :: bs => b + 256 * bytesToNat bs

/-- The value of a byte list is below `256 ^ length`. -/
theorem bytesToNat_lt (bs : List Nat) (hb : ∀ b ∈ bs, b < 256) :
    bytesToNat bs < 256 ^ bs.length := by
  induction bs with
  | nil => simp [bytesToNat]
  | cons b t ih =>
      have h1 : b < 256 := hb b (by simp)
      have h2 : bytesToNat t < 256 ^ t.length := ih (fun x hx => hb x (by simp [hx]))
      simp only [bytesToNat, List.length_cons, pow_succ]
      have := pow_pos (show 0 < 256 by decide) t.length
      nlinarith

/-- Byte lists of equal length with equal values are equal. -/
theorem bytesToNat_inj : ∀ (bs1 bs2 : List Nat), bs1.length = bs2.length →
    (∀ b ∈ bs1, b < 256) → (∀ b ∈ bs2, b < 256) →
    bytesToNat bs1 = bytesToNat bs2 → bs1 = bs2 := by
  intro bs1
  induction bs1 with
  | nil =>
      intro bs2 hlen _ _ _
      cases bs2 with
      | nil => rfl
      | cons _ _ => simp at hlen
  | cons b1 t1 ih =>
      intro bs2 hlen hb1 hb2 hval
      cases bs2 with
      | nil => simp at hlen
      | cons b2 t2 =>
          have hlt1 : b1 < 256 := hb1 b1 (by simp)
          have hlt2 : b2 < 256 := hb2 b2 (by simp)
          simp only [bytesToNat] at hval
          have hb : b1 = b2 := by omega
          have ht : bytesToNat t1 = bytesToNat t2 := by omega
          have := ih t2 (by simpa using hlen)
            (fun x hx => hb1 x (by simp [hx]))
            (fun x hx => hb2 x (by simp [hx])) ht
          rw [hb, this]

/-- An infinite family of pairwise-distinct `.mp3` paths. -/
def pathFam (n : Nat) : String :=
  "/m/" ++ String.mk (List.replicate n 'a') ++ ".mp3"

/-- Distinct indices give distinct paths (their lengths differ). -/
theorem pathFam_inj {n m : Nat} (h : pathFam n = pathFam m) : n = m := by
  have hd := congrArg String.data h
  simp only [pathFam, String.data_append] at hd
  have hl := congrArg List.length hd
  simp only [List.length_append, List.length_replicate] at hl
  omega

/-- The character list of a family path. -/
theorem pathFam_data (n : Nat) :
    (pathFam n).data = ['/', 'm', '/'] ++ List.replicate n 'a' ++ ['.', 'm', 'p', '3'] := by
  simp [pathFam, String.data_append]

/-- `extScan` reads `.mp3` off the reversed suffix regardless of what
follows. -/
theorem extScan_mp3 (junk : List Char) :
    extScan ('3' :: 'p' :: 'm' :: '.' :: junk) [] = ['.', 'm', 'p', '3'] := by
  simp [extScan]

/-- Every family path has extension `.mp3`. -/
theorem extGo_pathFam (n : Nat) : extGo (pathFam n) = ".mp3" := by
  have hrev : (pathFam n).data.reverse =
      '3' :: 'p' :: 'm' :: '.' :: ((List.replicate n 'a').reverse ++ ['/', 'm', '/']) := by
    rw [pathFam_data]
    simp
  rw [extGo, hrev, extScan_mp3]

/-- Every family path passes the scanner's `.mp3` test. -/
theorem isMp3Path_pathFam (n : Nat) : isMp3Path (pathFam n) = true := by
  rw [isMp3Path, extGo_pathFam]
  decide

/-- `NewSong` stores the derived identifier. -/
theorem newSong_id (p : String) (sz mt : Int) : (newSong p sz mt).id = generateID p := rfl

/-- The truncated 128-bit digest cannot be injective on the infinite
path family: by the pigeonhole principle two distinct family paths share
an identifier. -/
theorem pathFam_collision :
    ∃ i j : Nat, pathFam i ≠ pathFam j ∧ generateID (pathFam i) = generateID (pathFam j) := by
  have hbound : ∀ n : Nat, bytesToNat (digest16 (pathFam n)) < 256 ^ 16 := by
    intro n
    have := bytesToNat_lt (digest16 (pathFam n)) (digest16_mem_lt _)
    rwa [digest16_length] at this
  obtain ⟨i, j, hij, hfeq⟩ :=
    Finite.exists_ne_map_eq_of_infinite
      (fun n : Nat => (⟨bytesToNat (digest16 (pathFam n)), hbound n⟩ : Fin (256 ^ 16)))
  have hval : bytesToNat (digest16 (pathFam i)) = bytesToNat (digest16 (pathFam j)) := by
    simpa using congrArg Fin.val hfeq
  have hdig : digest16 (pathFam i) = digest16 (pathFam j) :=
    bytesToNat_inj _ _ (by rw [digest16_length, digest16_length])
      (digest16_mem_lt _) (digest16_mem_lt _) hval
  refine ⟨i, j, fun hp => hij (pathFam_inj hp), ?_⟩
  show hexEncode (digest16 (pathFam i)) = hexEncode (digest16 (pathFam j))
  rw [hdig]

/-- **C5, counterexample.** It is not true that every scan over distinct
file paths yields pairwise-distinct identifiers: the identifier keeps
only 128 bits of the path digest, so by pigeonhole two distinct `.mp3`
paths collide, and a scan over those two files produces two entries with
the same identifier. -/
theorem c5_counterexample :
    ¬ (∀ files : List FileRec, (files.map FileRec.path).Nodup →
        ((scanSongs files).map Song.id).Nodup) := by
  intro h
  obtain ⟨i, j, hne, heq⟩ := pathFam_collision
  have hids := h [⟨pathFam i, 0, 0⟩, ⟨pathFam j, 0, 0⟩] (by simp [hne])
  rw [show scanSongs [⟨pathFam i, 0, 0⟩, ⟨pathFam j, 0, 0⟩] =
      [newSong (pathFam i) 0 0, newSong (pathFam j) 0 0] by
    simp [scanSongs, List.filter, isMp3Path_pathFam]] at hids
  rw [List.map_cons, List.map_cons, List.map_nil, newSong_id, newSong_id,
    List.nodup_cons] at hids
  exact hids.1 (by simp [heq])

/-- Equal hex encodings of byte lists force equal byte lists. -/
theorem hexEncode_inj : ∀ (bs1 bs2 : List Nat), (∀ b ∈ bs1, b < 256) →
    (∀ b ∈ bs2, b < 256) → hexEncode bs1 = hexEncode bs2 → bs1 = bs2 := by
  have hchar : ∀ x < 16, ∀ y < 16, hexChar x = hexChar y → x = y := by decide
  intro bs1
  induction bs1 with
  | nil =>
      intro bs2 _ _ h
      cases bs2 with
      | nil => rfl
      | cons b t =>
          have := congrArg String.data h
          simp [hexEncode, hexCharsOf] at this
  | cons b1 t1 ih =>
      intro bs2 hb1 hb2 h
      cases bs2 with
      | nil =>
          have := congrArg String.data h
          simp [hexEncode, hexCharsOf] at this
      | cons b2 t2 =>
          have hd := congrArg String.data h
          simp only [hexEncode, hexCharsOf, List.foldr] at hd
          injection hd with h1 hd
          injection hd with h2 hd
          have hlt1 : b1 < 256 := hb1 b1 (by simp)
          have hlt2 : b2 < 256 := hb2 b2 (by simp)
          have e1 : b1 / 16 = b2 / 16 := hchar _ (by omega) _ (by omega) h1
          have e2 : b1 % 16 = b2 % 16 := hchar _ (by omega) _ (by omega) h2
          have hb : b1 = b2 := by omega
          have ht : t1 = t2 := by
            refine ih t2 (fun x hx => hb1 x (by simp [hx]))
              (fun x hx => hb2 x (by simp [hx])) ?_
            simp only [hexEncode]
            exact congrArg String.mk hd
          rw [hb, ht]

/-- **C5, amended.** Identifiers of one scan's output are pairwise
distinct *provided* the scanned paths' truncated SHA-256 digests are
pairwise distinct (no 128-bit collision among them); uniqueness of the
identifiers is exactly uniqueness of the truncated digests. -/
theorem c5_scan_ids_nodup (files : List FileRec)
    (hdig : (files.map fun f => digest16 f.path).Nodup) :
    ((scanSongs files).map Song.id).Nodup := by
  have hsub : ((files.filter fun f => isMp3Path f.path).map fun f => digest16 f.path).Sublist
      (files.map fun f => digest16 f.path) :=
    (List.filter_sublist files).map _
  have hnodup : ((files.filter fun f => isMp3Path f.path).map fun f => digest16 f.path).Nodup :=
    hdig.sublist hsub
  have hids : (scanSongs files).map Song.id =
      ((files.filter fun f => isMp3Path f.path).map fun f => digest16 f.path).map hexEncode := by
    simp only [scanSongs, List.map_map]
    simp only [List.map_inj_left, Function.comp_apply]
    intro a _
    rfl
  rw [hids]
  refine hnodup.map_on ?_
  intro x hx y hy hxy
  simp only [List.mem_map] at hx hy
  obtain ⟨fx, _, hfx⟩ := hx
  obtain ⟨fy, _, hfy⟩ := hy
  exact hexEncode_inj x y (hfx ▸ digest16_mem_lt fx.path) (hfy ▸ digest16_mem_lt fy.path) hxy

/-- Witness for C5 (amended): two concrete paths with distinct truncated
digests scan to entries with distinct identifiers. -/
theorem c5_scan_ids_nodup_witness :
    (([⟨"/music/a.mp3", 1, 0⟩, ⟨"/music/b.mp3", 2, 0⟩] : List FileRec).map
        fun f => digest16 f.path).Nodup ∧
    ((scanSongs [⟨"/music/a.mp3", 1, 0⟩, ⟨"/music/b.mp3", 2, 0⟩]).map Song.id).Nodup :=
  ⟨by decide,
   c5_scan_ids_nodup [⟨"/music/a.mp3", 1, 0⟩, ⟨"/music/b.mp3", 2, 0⟩] (by decide)⟩

end ZeroMusic
